import Mathlib

/-!
Shallow embedding of the H2 SQLAlchemy dialect adapter
(`sqlalchemy_h2/dialect/base.py`).

Identifiers and SQL text fragments handled by the dialect are Python 2
byte strings; we model them as lists of ASCII code points (`List Nat`).
-/

namespace H2

/-- Identifiers / text fragments: lists of ASCII code points. -/
abbrev Ident := List Nat

/-- Convert a Lean string literal into the code-point representation. -/
def str2c (s : String) : Ident := s.data.map Char.toNat

/-- Python `str.lower` on one ASCII code point. -/
def lowerC (c : Nat) : Nat := if 65 ≤ c ∧ c ≤ 90 then c + 32 else c

/-- Python `str.upper` on one ASCII code point. -/
def upperC (c : Nat) : Nat := if 97 ≤ c ∧ c ≤ 122 then c - 32 else c

/-- Python `name.lower()`. -/
def lowerI (n : Ident) : Ident := n.map lowerC

/-- Python `name.upper()`. -/
def upperI (n : Ident) : Ident := n.map upperC

/-- `H2IdentifierPreparer.reserved_words` (base.py lines 108-128). -/
def reserved_words : List Ident :=
  [str2c "add", str2c "after", str2c "all", str2c "alter", str2c "analyze",
   str2c "and", str2c "as", str2c "asc", str2c "attach", str2c "autoincrement",
   str2c "before", str2c "begin", str2c "between", str2c "by", str2c "cascade",
   str2c "case", str2c "cast", str2c "check", str2c "collate", str2c "column",
   str2c "commit", str2c "conflict", str2c "constraint", str2c "create",
   str2c "cross", str2c "current_date", str2c "current_time",
   str2c "current_timestamp", str2c "database", str2c "default",
   str2c "deferrable", str2c "deferred", str2c "delete", str2c "desc",
   str2c "detach", str2c "distinct", str2c "drop", str2c "each", str2c "else",
   str2c "end", str2c "escape", str2c "except", str2c "exclusive",
   str2c "exists", str2c "explain", str2c "false", str2c "fail", str2c "for",
   str2c "foreign", str2c "from", str2c "full", str2c "glob", str2c "group",
   str2c "having", str2c "if", str2c "ignore", str2c "immediate", str2c "in",
   str2c "index", str2c "indexed", str2c "initially", str2c "inner",
   str2c "insert", str2c "instead", str2c "intersect", str2c "into",
   str2c "is", str2c "isnull", str2c "join", str2c "key", str2c "left",
   str2c "like", str2c "limit", str2c "match", str2c "minus", str2c "natural",
   str2c "not", str2c "notnull", str2c "null", str2c "of", str2c "offset",
   str2c "on", str2c "or", str2c "order", str2c "outer", str2c "plan",
   str2c "pragma", str2c "primary", str2c "query", str2c "raise",
   str2c "references", str2c "reindex", str2c "rename", str2c "replace",
   str2c "restrict", str2c "right", str2c "rollback", str2c "row",
   str2c "rownum", str2c "select", str2c "set", str2c "sysdate",
   str2c "systime", str2c "systimestamp", str2c "table", str2c "temp",
   str2c "temporary", str2c "then", str2c "to", str2c "today",
   str2c "transaction", str2c "trigger", str2c "true", str2c "union",
   str2c "unique", str2c "update", str2c "using", str2c "vacuum",
   str2c "values", str2c "view", str2c "virtual", str2c "when", str2c "where"]

/-- `[A-Z0-9_$]` case-insensitively: the `legal_characters` pattern of
SQLAlchemy's `IdentifierPreparer`. -/
def legalChar (c : Nat) : Bool :=
  (65 ≤ c && c ≤ 90) || (97 ≤ c && c ≤ 122) || (48 ≤ c && c ≤ 57) ||
    c == 95 || c == 36

/-- `illegal_initial_characters`: decimal digits and `$`. -/
def illegalInitial (c : Nat) : Bool := (48 ≤ c && c ≤ 57) || c == 36

/-- SQLAlchemy `IdentifierPreparer._requires_quotes`: the lower-cased value
is a reserved word, or the first character is an illegal initial
character, or some character is outside the legal set (an empty value also
fails the legal-characters pattern), or the value is not all lower-case. -/
def requires_quotes (v : Ident) : Bool :=
  decide (lowerI v ∈ reserved_words) ||
  (match v.head? with | some c => illegalInitial c | none => false) ||
  !(!v.isEmpty && v.all legalChar) ||
  decide (lowerI v ≠ v)

/-- `H2Dialect.normalize_name` (base.py lines 194-205) on a non-null name. -/
def normalize_name (name : Ident) : Ident :=
  if upperI name = name ∧ requires_quotes (lowerI name) = false then
    lowerI name
  else name

/-- `H2Dialect.denormalize_name` (base.py lines 207-220) on a non-null name. -/
def denormalize_name (name : Ident) : Ident :=
  if lowerI name = name ∧ requires_quotes (lowerI name) = false then
    upperI name
  else name

/-! ### Statement compiler: LIMIT/OFFSET (base.py lines 65-73) -/

/-- `H2Compiler.limit_clause`: builds the limit text by successive `+=`,
with literal values rendered inline. -/
def limit_clause (limit off : Option Int) : String :=
  let text := ""
  let text :=
    match limit with
    | some l => text ++ ("\n LIMIT " ++ toString l)
    | none => text
  match off with
  | some o =>
      (match limit with
       | none => text ++ "\n LIMIT NULL"
       | some _ => text) ++ (" OFFSET " ++ toString o)
  | none => text

/-! ### Column reflection (base.py lines 322-405) -/

/-- One row of the `INFORMATION_SCHEMA.COLUMNS` / `TYPE_INFO` join issued by
`get_columns`: `(COLUMN_NAME, TYPE_NAME, COLUMN_DEFAULT, IS_NULLABLE,
AUTO_INCREMENT, CHARACTER_MAXIMUM_LENGTH)`. -/
structure ColRow where
  column_name : Ident
  type_name : Ident
  default : Option Ident
  is_nullable : Ident
  auto_increment : Option Bool
  char_len : Option Nat
deriving DecidableEq, Repr

/-- The reflected column type: a recognized `sqltypes` class applied to its
positional arguments, or the `sqltypes.NULLTYPE` sentinel. -/
inductive ColType
  | known (tyname : Ident) (args : List Nat)
  | nulltype
deriving DecidableEq, Repr

/-- A reflected column descriptor (the dict built at base.py lines 400-403). -/
structure ColDesc where
  name : Ident
  type : ColType
  nullable : Bool
  default : Option Ident
  autoincrement : Option Bool
deriving DecidableEq, Repr

/-- `H2Dialect.ischema_names` (base.py lines 170-188): the 14 names map to
the same-named `sqltypes` class and `DOUBLE` maps to `NUMERIC`. -/
def ischema_names : List (Ident × Ident) :=
  [(str2c "BIGINT", str2c "BIGINT"), (str2c "BINARY", str2c "BINARY"),
   (str2c "BLOB", str2c "BLOB"), (str2c "BOOLEAN", str2c "BOOLEAN"),
   (str2c "CHAR", str2c "CHAR"), (str2c "CLOB", str2c "CLOB"),
   (str2c "DATE", str2c "DATE"), (str2c "DATETIME", str2c "DATETIME"),
   (str2c "DECIMAL", str2c "DECIMAL"), (str2c "INTEGER", str2c "INTEGER"),
   (str2c "SMALLINT", str2c "SMALLINT"), (str2c "TIME", str2c "TIME"),
   (str2c "TIMESTAMP", str2c "TIMESTAMP"), (str2c "VARCHAR", str2c "VARCHAR"),
   (str2c "DOUBLE", str2c "NUMERIC")]

/-- Dictionary lookup in `ischema_names`. -/
def ischema_lookup (t : Ident) : Option Ident :=
  (ischema_names.find? (fun p => p.1 == t)).map (·.2)

/-- First literal of the auto-increment default pattern
`NEXT VALUE FOR .*\.SYSTEM_SEQUENCE_.*` (base.py line 367). -/
def nvfNeedle1 : Ident := str2c "NEXT VALUE FOR "

/-- Second literal of the auto-increment default pattern. -/
def nvfNeedle2 : Ident := str2c ".SYSTEM_SEQUENCE_"

/-- After `NEXT VALUE FOR ` has matched: skip non-newline characters (regex
`.` does not match a newline) until `.SYSTEM_SEQUENCE_` matches. -/
def nvfMid : Ident → Bool
  | [] => false
  | c :: rest => nvfNeedle2.isPrefixOf (c :: rest) || (c != 10 && nvfMid rest)

/-- `re.search('NEXT VALUE FOR .*\.SYSTEM_SEQUENCE_.*', d)` as a Boolean:
the pattern may match starting at any position. -/
def nvfSearch : Ident → Bool
  | [] => false
  | c :: rest =>
    (nvfNeedle1.isPrefixOf (c :: rest) &&
      nvfMid ((c :: rest).drop nvfNeedle1.length)) || nvfSearch rest

/-- Default/auto-increment munging (base.py lines 364-371): a non-null
default matching the sequence pattern is cleared and auto-increment forced
to true; otherwise both pass through. -/
def colDefaultAuto (row : ColRow) : Option Ident × Option Bool :=
  match row.default with
  | some d => if nvfSearch d then (none, some true) else (some d, row.auto_increment)
  | none => (none, row.auto_increment)

/-- The type names receiving an empty argument tuple (base.py lines 377-384). -/
def fixedArgTypes : List Ident :=
  [str2c "INT", str2c "INTEGER", str2c "DATE", str2c "TIMESTAMP", str2c "CLOB"]

/-- Positional type arguments (base.py lines 375-386): `DOUBLE` gets `(53,)`;
the fixed list gets `()`; otherwise a truthy `CHARACTER_MAXIMUM_LENGTH`
becomes the single argument. -/
def colArgs (row : ColRow) : List Nat :=
  if row.type_name = str2c "DOUBLE" then [53]
  else if row.type_name ∈ fixedArgTypes then []
  else
    match row.char_len with
    | some n => if n ≠ 0 then [n] else []
    | none => []

/-- Column type construction (base.py lines 388-398): unmapped names produce
the `NULLTYPE` sentinel. -/
def colTypeOf (row : ColRow) : ColType :=
  match ischema_lookup row.type_name with
  | some ty => .known ty (colArgs row)
  | none => .nulltype

/-- Process one row of the `get_columns` loop; the Boolean is true when the
`util.warn` branch for an unrecognized type fires. -/
def processColumn (row : ColRow) : ColDesc × Bool :=
  let da := colDefaultAuto row
  ({ name := normalize_name row.column_name,
     type := colTypeOf row,
     nullable := row.is_nullable == str2c "YES",
     default := da.1,
     autoincrement := da.2 },
   (ischema_lookup row.type_name).isNone)

/-- One iteration of the `get_columns` loop over the accumulated
descriptors and `util.warn` messages. -/
def colStep (st : List ColDesc × List (Ident × Ident)) (row : ColRow) :
    List ColDesc × List (Ident × Ident) :=
  let dw := processColumn row
  (st.1 ++ [dw.1],
   st.2 ++ (if dw.2 then [(row.type_name, normalize_name row.column_name)] else []))

/-- `H2Dialect.get_columns` result assembly: descriptors in row order, plus
the `(type_name, column name)` pairs passed to `util.warn`. -/
def get_columns (rows : List ColRow) : List ColDesc × List (Ident × Ident) :=
  rows.foldl colStep ([], [])

/-! ### Foreign-key definition parsing (base.py lines 457-524)

The Python code runs
`re.search('FOREIGN KEY\((.*?)\).*?REFERENCES (?:(.*?)\.)?(.*?)\((.*?)\)', condef)`.
We embed this fixed pattern as a backtracking matcher: each lazy group
`(.*?)` captures the shortest non-newline run for which the rest of the
pattern succeeds, extending on failure, and the greedy optional group
`(?:...)?` is tried with the group before falling back to skipping it. -/

/-- Match a literal, then run the continuation on the remaining input. -/
def litTok (needle : Ident) (k : Ident → Option α) (cs : Ident) : Option α :=
  if needle.isPrefixOf cs then k (cs.drop needle.length) else none

/-- A lazy `(.*?)` group: try the continuation with the current capture,
extend by one non-newline character on failure. -/
def lazyCap (k : Ident → Ident → Option α) : Ident → Ident → Option α
  | acc, [] => k acc.reverse []
  | acc, c :: rest =>
    match k acc.reverse (c :: rest) with
    | some r => some r
    | none => if c = 10 then none else lazyCap k (c :: acc) rest

/-- The captured groups of the foreign-key pattern:
constrained columns, optional referred schema, referred table,
referred columns. -/
abbrev FkGroups := Ident × Option Ident × Ident × Ident

/-- `(.*?)\((.*?)\)`: table name then parenthesized column list. -/
def tblCols (done : Ident → Ident → Option FkGroups) (cs : Ident) :
    Option FkGroups :=
  lazyCap (fun tbl r =>
    litTok (str2c "(") (fun r2 =>
      lazyCap (fun cols r3 =>
        litTok (str2c ")") (fun _ => done tbl cols) r3) [] r2) r) [] cs

/-- Try the whole foreign-key pattern anchored at the start of `cs`. -/
def fkMatchAt (cs : Ident) : Option FkGroups :=
  litTok (str2c "FOREIGN KEY(") (fun r1 =>
    lazyCap (fun cc r2 =>
      litTok (str2c ")") (fun r3 =>
        lazyCap (fun _ r4 =>
          litTok (str2c "REFERENCES ") (fun r5 =>
            (lazyCap (fun sch r6 =>
               litTok (str2c ".") (fun r7 =>
                 tblCols (fun tbl cols => some (cc, some sch, tbl, cols)) r7)
                 r6) [] r5)
            <|>
            tblCols (fun tbl cols => some (cc, none, tbl, cols)) r5) r4)
          [] r3) r2) [] r1) cs

/-- `re.search` semantics: try the pattern at every start position. -/
def fkSearch : Ident → Option FkGroups
  | [] => fkMatchAt []
  | c :: rest => fkMatchAt (c :: rest) <|> fkSearch rest

/-- Python `\s` on byte strings. -/
def isWs (c : Nat) : Bool :=
  c == 32 || c == 9 || c == 10 || c == 11 || c == 12 || c == 13

/-- A match of `\s*,\s*` anchored here: the maximal whitespace run must be
followed by a comma; the comma's trailing whitespace run is consumed too.
Returns the rest after the match. -/
def fireStarStar (cs : Ident) : Option Ident :=
  match cs.drop (cs.takeWhile isWs).length with
  | c :: rest => if c = 44 then some (rest.drop (rest.takeWhile isWs).length) else none
  | [] => none

/-- A match of `\s*,\s` anchored here: whitespace run, comma, then exactly
one whitespace character. -/
def fireStarOne (cs : Ident) : Option Ident :=
  match cs.drop (cs.takeWhile isWs).length with
  | c :: d :: rest => if c = 44 && isWs d then some rest else none
  | _ => none

/-- `re.split(r'\s*,\s*', cs)` (base.py line 500): scan left to right,
cutting at every leftmost separator match. Structural recursion on a fuel
bound; every separator match strictly shortens the input
(`fireStarStar_length`), so any fuel above the input length is enough
(`splitStarGo_congr`). -/
def splitStarGo : Nat → Ident → Ident → List Ident
  | 0, acc, _ => [acc.reverse]
  | _ + 1, acc, [] => [acc.reverse]
  | fuel + 1, acc, c :: rest =>
    match fireStarStar (c :: rest) with
    | some rest2 => acc.reverse :: splitStarGo fuel [] rest2
    | none => splitStarGo fuel (c :: acc) rest

/-- `re.split(r'\s*,\s', cs)` (base.py line 513). -/
def splitOneGo : Nat → Ident → Ident → List Ident
  | 0, acc, _ => [acc.reverse]
  | _ + 1, acc, [] => [acc.reverse]
  | fuel + 1, acc, c :: rest =>
    match fireStarOne (c :: rest) with
    | some rest2 => acc.reverse :: splitOneGo fuel [] rest2
    | none => splitOneGo fuel (c :: acc) rest

/-- Split on comma with optional surrounding whitespace. -/
def re_split_star (cs : Ident) : List Ident := splitStarGo (cs.length + 1) [] cs

/-- Split on comma followed by one whitespace character. -/
def re_split_one (cs : Ident) : List Ident := splitOneGo (cs.length + 1) [] cs

/-- `IdentifierPreparer._unescape_identifier`: undouble the quote character. -/
def unescapeQ : Ident → Ident
  | 34 :: 34 :: rest => 34 :: unescapeQ rest
  | c :: rest => c :: unescapeQ rest
  | [] => []

/-- `H2IdentifierPreparer._unquote_identifier`: Python `strip('"')`. -/
def stripQ (cs : Ident) : Ident :=
  ((cs.dropWhile (· == 34)).reverse.dropWhile (· == 34)).reverse

/-- `_prepare_name` inside `get_foreign_keys` (base.py lines 492-497). -/
def prepare_name (raw : Ident) : Ident :=
  normalize_name (stripQ (unescapeQ raw))

/-- A reflected foreign-key constraint (base.py lines 516-522). -/
structure FKey where
  name : Ident
  constrained_columns : List Ident
  referred_schema : Option Ident
  referred_table : Ident
  referred_columns : List Ident
deriving DecidableEq, Repr

/-- `H2Dialect._get_default_schema_name` (base.py lines 262-263). -/
def default_schema_name : Ident := normalize_name (str2c "public")

/-- Process one `(CONSTRAINT_NAME, SQL)` row of `get_foreign_keys`
(base.py lines 482-523); `none` models the `AttributeError` raised by
`.groups()` when the pattern does not match. -/
def fkRow (default_schema schema conname condef : Ident) : Option FKey :=
  (fkSearch condef).map fun g =>
    let constrained := (re_split_star g.1).map prepare_name
    let referred_schema_1 : Ident :=
      match g.2.1 with
      | some s => if s ≠ [] then prepare_name s else schema
      | none => schema
    let referred_schema : Option Ident :=
      if referred_schema_1 = default_schema then none else some referred_schema_1
    { name := conname,
      constrained_columns := constrained,
      referred_schema := referred_schema,
      referred_table := prepare_name g.2.2.1,
      referred_columns := (re_split_one g.2.2.2).map prepare_name }

/-- `H2Dialect.get_foreign_keys` over the fetched constraint rows. -/
def get_foreign_keys (schema : Option Ident) (rows : List (Ident × Ident)) :
    Option (List FKey) :=
  let ds := default_schema_name
  let s := schema.getD ds
  rows.mapM (fun r => fkRow ds s r.1 r.2)

/-! ### Index reflection (base.py lines 526-571) -/

/-- One row of the `INFORMATION_SCHEMA.INDEXES` query:
`(INDEX_NAME, NON_UNIQUE, COLUMN_NAME, INDEX_TYPE_NAME)`. -/
structure IdxRow where
  index_name : Ident
  non_unique : Bool
  column_name : Ident
  index_type_name : Ident
deriving DecidableEq, Repr

/-- A reflected index descriptor. -/
structure IdxDesc where
  name : Ident
  column_names : List Ident
  unique : Bool
deriving DecidableEq, Repr

/-- The `index_names` dict plus `indexes` list of the Python loop: the
descriptor for an existing name is updated in place (a column appended and
`unique` overwritten), otherwise a fresh descriptor is appended. -/
def updIdx (st : List IdxDesc) (nm col : Ident) (uq : Bool) : List IdxDesc :=
  if st.any (fun d => d.name == nm) then
    st.map (fun d =>
      if d.name == nm then
        { name := nm, column_names := d.column_names ++ [col], unique := uq }
      else d)
  else st ++ [{ name := nm, column_names := [col], unique := uq }]

/-- One iteration of the `get_indexes` loop: primary-key rows are skipped
unless `include_auto_indexes` is set; names are normalized after the check. -/
def idxStep (include_auto : Bool) (st : List IdxDesc) (row : IdxRow) :
    List IdxDesc :=
  if !include_auto && row.index_type_name == str2c "PRIMARY KEY" then st
  else
    updIdx st (normalize_name row.index_name) (normalize_name row.column_name)
      (!row.non_unique)

/-- `H2Dialect.get_indexes` over the fetched rows. -/
def get_indexes (include_auto : Bool) (rows : List IdxRow) : List IdxDesc :=
  rows.foldl (idxStep include_auto) []

/-! ### Two-phase commit (base.py lines 587-593) -/

/-- Observable actions of the transaction coordinator: a SQL statement sent
through `connection.execute`, or a local DB-API rollback/commit. -/
inductive TPAction
  | execSQL (s : String)
  | localRollback
  | localCommit
deriving DecidableEq, Repr

/-- `H2Dialect.do_commit_twophase` as the sequence of actions it issues. -/
def do_commit_twophase (xid : String) (is_prepared : Bool) : List TPAction :=
  if is_prepared then
    [.execSQL ("COMMIT TRANSACTION " ++ xid), .localRollback]
  else
    [.localCommit]

/-! ### View-name listing (base.py lines 305-312) -/

/-- Result of `get_view_names`: either the normalized names, or the
`UnboundLocalError` raised when `s` was never assigned. -/
inductive ViewListResult
  | ok (names : List Ident)
  | unboundLocalError
deriving DecidableEq

/-- The statement text assigned to `s` in the `schema is None` branch. -/
def viewsSQL : String := "SELECT TABLE_NAME FROM INFORMATION_SCHEMA.VIEWS"

/-- `H2Dialect.get_view_names`: the local `s` is only assigned inside the
`schema is None` branch; evaluating it otherwise raises before
`connection.execute` runs. Returns the result and the statements issued. -/
def get_view_names (schema : Option Ident) (execute : String → List Ident) :
    ViewListResult × List String :=
  let s : Option String :=
    match schema with
    | none => some viewsSQL
    | some _ => none
  match s with
  | none => (.unboundLocalError, [])
  | some stmt => (.ok ((execute stmt).map normalize_name), [stmt])


/-! ### Helper lemmas -/

theorem fireStarStar_length {cs rest2 : Ident}
    (h : fireStarStar cs = some rest2) : rest2.length < cs.length := by
  unfold fireStarStar at h
  split at h
  · next c rest heq =>
      have hlen := List.length_drop (cs.takeWhile isWs).length cs
      rw [heq] at hlen
      split at h
      · rw [Option.some.injEq] at h
        have h1 : rest2.length ≤ rest.length := by
          rw [← h, List.length_drop]; omega
        simp only [List.length_cons] at hlen
        omega
      · exact absurd h (by simp)
  · exact absurd h (by simp)

theorem fireStarOne_length {cs rest2 : Ident}
    (h : fireStarOne cs = some rest2) : rest2.length < cs.length := by
  unfold fireStarOne at h
  split at h
  · next c d rest heq =>
      have hlen := List.length_drop (cs.takeWhile isWs).length cs
      rw [heq] at hlen
      split at h
      · rw [Option.some.injEq] at h
        simp only [List.length_cons] at hlen
        rw [← h]
        omega
      · exact absurd h (by simp)
  · exact absurd h (by simp)

/-- The fuel bound of `splitStarGo` is irrelevant once it exceeds the input
length: the scanner genuinely terminates. -/
theorem splitStarGo_congr :
    ∀ (f1 f2 : Nat) (acc cs : Ident), cs.length < f1 → cs.length < f2 →
      splitStarGo f1 acc cs = splitStarGo f2 acc cs := by
  intro f1
  induction f1 with
  | zero => intro f2 acc cs h1; omega
  | succ f1 ih =>
    intro f2 acc cs h1 h2
    match f2, cs with
    | 0, cs => omega
    | f2 + 1, [] => rfl
    | f2 + 1, c :: rest =>
      simp only [splitStarGo]
      rcases hf : fireStarStar (c :: rest) with _ | rest2
      · simp only [List.length_cons] at h1 h2
        exact ih f2 (c :: acc) rest (by omega) (by omega)
      · have := fireStarStar_length hf
        simp only [List.length_cons] at h1 h2 this
        exact congrArg (fun x => acc.reverse :: x)
          (ih f2 [] rest2 (by omega) (by omega))

/-- The fuel bound of `splitOneGo` is irrelevant once it exceeds the input
length. -/
theorem splitOneGo_congr :
    ∀ (f1 f2 : Nat) (acc cs : Ident), cs.length < f1 → cs.length < f2 →
      splitOneGo f1 acc cs = splitOneGo f2 acc cs := by
  intro f1
  induction f1 with
  | zero => intro f2 acc cs h1; omega
  | succ f1 ih =>
    intro f2 acc cs h1 h2
    match f2, cs with
    | 0, cs => omega
    | f2 + 1, [] => rfl
    | f2 + 1, c :: rest =>
      simp only [splitOneGo]
      rcases hf : fireStarOne (c :: rest) with _ | rest2
      · simp only [List.length_cons] at h1 h2
        exact ih f2 (c :: acc) rest (by omega) (by omega)
      · have := fireStarOne_length hf
        simp only [List.length_cons] at h1 h2 this
        exact congrArg (fun x => acc.reverse :: x)
          (ih f2 [] rest2 (by omega) (by omega))


theorem lowerC_idem (c : Nat) : lowerC (lowerC c) = lowerC c := by
  simp only [lowerC]
  split_ifs <;> omega

theorem upperC_lowerC (c : Nat) (h : upperC c = c) : upperC (lowerC c) = c := by
  simp only [upperC, lowerC] at h ⊢
  split_ifs at h ⊢ <;> omega

theorem lowerI_idem (X : Ident) : lowerI (lowerI X) = lowerI X := by
  induction X with
  | nil => rfl
  | cons c t ih =>
    simp only [lowerI, List.map_cons] at ih ⊢
    rw [lowerC_idem]
    rw [show List.map lowerC (List.map lowerC t) = List.map lowerC t from ih]

theorem upperI_lowerI (X : Ident) (h : upperI X = X) : upperI (lowerI X) = X := by
  induction X with
  | nil => rfl
  | cons c t ih =>
    simp only [upperI, lowerI, List.map_cons, List.cons.injEq] at h ⊢
    exact ⟨upperC_lowerC c h.1, ih h.2⟩

/-- C3: an all-upper-case identifier that would not require quoting when
lower-cased normalizes to its lower-case form and denormalizes back to
itself; a mixed-case identifier or a reserved word is left unchanged by
normalization. -/
theorem normalize_denormalize_roundtrip (X : Ident) :
    (upperI X = X → requires_quotes (lowerI X) = false →
      normalize_name X = lowerI X ∧
        denormalize_name (normalize_name X) = X) ∧
    ((upperI X ≠ X ∧ lowerI X ≠ X) ∨ lowerI X ∈ reserved_words →
      normalize_name X = X) := by
  constructor
  · intro h1 h2
    have hnorm : normalize_name X = lowerI X := by
      rw [normalize_name, if_pos ⟨h1, h2⟩]
    refine ⟨hnorm, ?_⟩
    rw [hnorm, denormalize_name,
      if_pos ⟨lowerI_idem X, by rw [lowerI_idem]; exact h2⟩]
    exact upperI_lowerI X h1
  · intro h
    rcases h with ⟨hm, _⟩ | hr
    · rw [normalize_name, if_neg]
      rintro ⟨ha, _⟩
      exact hm ha
    · rw [normalize_name, if_neg]
      rintro ⟨_, hq⟩
      have ht : requires_quotes (lowerI X) = true := by
        unfold requires_quotes
        have hd : decide (lowerI (lowerI X) ∈ reserved_words) = true := by
          rw [lowerI_idem]
          exact decide_eq_true hr
        simp [hd]
      rw [hq] at ht
      exact Bool.false_ne_true ht

/-- Witness for C3 at concrete identifiers. -/
theorem normalize_denormalize_roundtrip_witness :
    normalize_name (str2c "TBL_A") = lowerI (str2c "TBL_A") ∧
    denormalize_name (normalize_name (str2c "TBL_A")) = str2c "TBL_A" ∧
    normalize_name (str2c "SELECT") = str2c "SELECT" :=
  ⟨((normalize_denormalize_roundtrip (str2c "TBL_A")).1 (by decide) (by decide)).1,
   ((normalize_denormalize_roundtrip (str2c "TBL_A")).1 (by decide) (by decide)).2,
   (normalize_denormalize_roundtrip (str2c "SELECT")).2 (Or.inr (by decide))⟩


theorem string_append_assoc (a b c : String) : a ++ b ++ c = a ++ (b ++ c) := by
  apply String.ext
  simp only [String.data_append, List.append_assoc]

/-- C4 counterexample: the compiled clause for limit=5 carries a leading
newline and space, so it is not the bare string `LIMIT 5`. -/
theorem limit_clause_counterexample :
    limit_clause (some 5) none ≠ "LIMIT 5" := by decide

/-- C4 (amended): the compiled limit clause is `"\n LIMIT <l>"` when only a
limit is present, `"\n LIMIT NULL OFFSET <o>"` when only an offset is
present, `"\n LIMIT <l> OFFSET <o>"` when both are, and empty when neither
is: each non-empty form starts with a newline and a space. -/
theorem limit_clause_cases (l o : Int) :
    limit_clause (some l) none = "\n LIMIT " ++ toString l ∧
    limit_clause none (some o) = "\n LIMIT NULL OFFSET " ++ toString o ∧
    limit_clause (some l) (some o) =
      "\n LIMIT " ++ toString l ++ " OFFSET " ++ toString o ∧
    limit_clause none none = "" := by
  refine ⟨rfl, ?_, ?_, rfl⟩
  · show ("" ++ "\n LIMIT NULL") ++ (" OFFSET " ++ toString o) = _
    rw [show ("" ++ "\n LIMIT NULL" : String) = "\n LIMIT NULL" from rfl,
      ← string_append_assoc]
    rfl
  · show ("" ++ ("\n LIMIT " ++ toString l)) ++ (" OFFSET " ++ toString o) = _
    rw [show ∀ s : String, "" ++ s = s from fun _ => rfl, ← string_append_assoc,
      string_append_assoc ("\n LIMIT ") (toString l) (" OFFSET ")]

/-- C9: with `is_prepared` the coordinator sends `COMMIT TRANSACTION <xid>`
and then unconditionally performs a local rollback; without it, it performs
only a local commit and sends no transaction-id command. -/
theorem commit_twophase_actions (xid : String) :
    do_commit_twophase xid true =
      [TPAction.execSQL ("COMMIT TRANSACTION " ++ xid),
       TPAction.localRollback] ∧
    do_commit_twophase xid false = [TPAction.localCommit] ∧
    (∀ s, TPAction.execSQL s ∉ do_commit_twophase xid false) := by
  refine ⟨rfl, rfl, ?_⟩
  intro s hs
  simp [do_commit_twophase] at hs

/-- C10: calling `get_view_names` with an explicit schema hits the unbound
local `s` before any statement is issued; only the schema-absent call
returns the normalized view names (and issues exactly the views query). -/
theorem view_names_unbound_schema (sc : Ident) (execute : String → List Ident) :
    get_view_names (some sc) execute = (ViewListResult.unboundLocalError, []) ∧
    get_view_names none execute =
      (ViewListResult.ok ((execute viewsSQL).map normalize_name), [viewsSQL]) :=
  ⟨rfl, rfl⟩

/-- C8: the constraint name returned by `get_foreign_keys` is the raw
catalog value, not its normalized form — here the catalog reports
`SOME_FK` and the returned name stays `SOME_FK` although normalization
would give `some_fk`. -/
theorem fk_constraint_name_not_normalized :
    get_foreign_keys (some (str2c "public"))
        [(str2c "SOME_FK", str2c "FOREIGN KEY(a) REFERENCES parent(x)")] =
      some [{ name := str2c "SOME_FK",
              constrained_columns := [str2c "a"],
              referred_schema := none,
              referred_table := str2c "parent",
              referred_columns := [str2c "x"] }] ∧
    normalize_name (str2c "SOME_FK") = str2c "some_fk" ∧
    str2c "SOME_FK" ≠ str2c "some_fk" := by
  refine ⟨by decide, by decide, by decide⟩


/-- C1 counterexample: the referred-column list is NOT split on comma with
optional surrounding whitespace — `re.split(r'\\s*,\\s', ...)` demands one
whitespace character after the comma, so `(x,y)` stays a single referred
column while the constrained list `(a,b)` does split. -/
theorem fk_parse_counterexample :
    get_foreign_keys (some (str2c "public"))
        [(str2c "fk1", str2c "FOREIGN KEY(a,b) REFERENCES S2.parent(x,y)")] =
      some [{ name := str2c "fk1",
              constrained_columns := [str2c "a", str2c "b"],
              referred_schema := some (str2c "s2"),
              referred_table := str2c "parent",
              referred_columns := [str2c "x,y"] }] ∧
    [str2c "x,y"] ≠ [str2c "x", str2c "y"] := by
  refine ⟨by decide, by decide⟩

/-- C1 (amended): the raw definition is matched against
`FOREIGN KEY(<cols>) ... REFERENCES [<schema>.]<table>(<cols>)`; the
constrained-column list splits on comma with optional surrounding
whitespace, the referred-column list splits on comma followed by at least
one whitespace character; an omitted referred schema defaults to the
reflected table's schema, and a referred schema equal to the connection's
default schema is returned as absent. The claim's example parses to
constrained=[a,b], referred_schema=other_schema (normalized),
referred_table=parent, referred_columns=[x,y]. -/
theorem fk_parse_amended :
    get_foreign_keys none
        [(str2c "fk1",
          str2c "FOREIGN KEY(a, b) REFERENCES OTHER_SCHEMA.parent(x, y)")] =
      some [{ name := str2c "fk1",
              constrained_columns := [str2c "a", str2c "b"],
              referred_schema := some (str2c "other_schema"),
              referred_table := str2c "parent",
              referred_columns := [str2c "x", str2c "y"] }] ∧
    normalize_name (str2c "OTHER_SCHEMA") = str2c "other_schema" ∧
    get_foreign_keys none
        [(str2c "fk1",
          str2c "FOREIGN KEY(a, b) REFERENCES PUBLIC.parent(x, y)")] =
      some [{ name := str2c "fk1",
              constrained_columns := [str2c "a", str2c "b"],
              referred_schema := none,
              referred_table := str2c "parent",
              referred_columns := [str2c "x", str2c "y"] }] ∧
    get_foreign_keys (some (str2c "s2"))
        [(str2c "fk1", str2c "FOREIGN KEY(a) REFERENCES parent(x)")] =
      some [{ name := str2c "fk1",
              constrained_columns := [str2c "a"],
              referred_schema := some (str2c "s2"),
              referred_table := str2c "parent",
              referred_columns := [str2c "x"] }] ∧
    re_split_star (str2c "a ,  b,c") = [str2c "a", str2c "b", str2c "c"] ∧
    re_split_one (str2c "x, y,z") = [str2c "x", str2c "y,z"] := by
  refine ⟨by decide, by decide, by decide, by decide, by decide, by decide⟩

/-- C2: a non-null column default matching the internal sequence pattern is
returned as `default=None, autoincrement=True`; any other non-null default
passes through unchanged with the catalog-reported auto-increment flag. -/
theorem default_autoincrement_detection (row : ColRow) (d : Ident)
    (h : row.default = some d) :
    (nvfSearch d = true →
      (processColumn row).1.default = none ∧
      (processColumn row).1.autoincrement = some true) ∧
    (nvfSearch d = false →
      (processColumn row).1.default = some d ∧
      (processColumn row).1.autoincrement = row.auto_increment) := by
  constructor <;> intro hm <;>
    simp [processColumn, colDefaultAuto, h, hm]

/-- Witness for C2 at a sequence-generated and a plain default. -/
theorem default_autoincrement_detection_witness :
    (processColumn ⟨str2c "ID", str2c "INTEGER",
        some (str2c "NEXT VALUE FOR PUBLIC.SYSTEM_SEQUENCE_9AF2"),
        str2c "NO", some false, none⟩).1.default = none ∧
    (processColumn ⟨str2c "ID", str2c "INTEGER",
        some (str2c "NEXT VALUE FOR PUBLIC.SYSTEM_SEQUENCE_9AF2"),
        str2c "NO", some false, none⟩).1.autoincrement = some true ∧
    (processColumn ⟨str2c "N", str2c "INTEGER", some (str2c "42"),
        str2c "YES", some false, none⟩).1.default = some (str2c "42") ∧
    (processColumn ⟨str2c "N", str2c "INTEGER", some (str2c "42"),
        str2c "YES", some false, none⟩).1.autoincrement = some false :=
  ⟨((default_autoincrement_detection _ _ rfl).1 (by decide)).1,
   ((default_autoincrement_detection _ _ rfl).1 (by decide)).2,
   ((default_autoincrement_detection _ _ rfl).2 (by decide)).1,
   ((default_autoincrement_detection
      (⟨str2c "N", str2c "INTEGER", some (str2c "42"),
        str2c "YES", some false, none⟩ : ColRow)
      (str2c "42") rfl).2 (by decide)).2⟩

/-- C6 counterexample: `BLOB` is a large-object type but does not ignore
the catalog length — a reported length 10 becomes a type argument. -/
theorem fixed_types_counterexample :
    (processColumn ⟨str2c "C1", str2c "BLOB", none, str2c "YES",
        none, some 10⟩).1.type = ColType.known (str2c "BLOB") [10] ∧
    ColType.known (str2c "BLOB") [10] ≠ ColType.known (str2c "BLOB") [] := by
  refine ⟨by decide, by decide⟩

theorem colArgs_fixed (row : ColRow) (h : row.type_name ∈ fixedArgTypes) :
    colArgs row = [] := by
  have hd : ¬ row.type_name = str2c "DOUBLE" := by
    intro hd
    rw [hd] at h
    exact absurd h (by decide)
  unfold colArgs
  rw [if_neg hd, if_pos h]

/-- C6 (amended): `DOUBLE` maps to `NUMERIC(53)` whatever the catalog
length; exactly the names `INTEGER`, `DATE`, `TIMESTAMP`, `CLOB` (plus the
unmapped `INT`) ignore the length argument, while other types — including
the large-object `BLOB` — receive a non-zero catalog length as their
argument; character-bounded types take their length from the catalog. -/
theorem type_args_amended (row : ColRow) :
    (row.type_name = str2c "DOUBLE" →
      (processColumn row).1.type = ColType.known (str2c "NUMERIC") [53]) ∧
    (row.type_name ∈
        [str2c "INTEGER", str2c "DATE", str2c "TIMESTAMP", str2c "CLOB"] →
      (processColumn row).1.type = ColType.known row.type_name []) ∧
    (row.type_name = str2c "INT" →
      (processColumn row).1.type = ColType.nulltype) ∧
    (∀ n : Nat, row.type_name = str2c "VARCHAR" → row.char_len = some n →
      n ≠ 0 →
      (processColumn row).1.type = ColType.known (str2c "VARCHAR") [n]) := by
  refine ⟨?_, ?_, ?_, ?_⟩
  · intro h
    have hlook : ischema_lookup row.type_name = some (str2c "NUMERIC") := by
      rw [h]; decide
    have hargs : colArgs row = [53] := by
      unfold colArgs
      rw [if_pos h]
    show colTypeOf row = _
    simp only [colTypeOf, hlook, hargs]
  · intro h
    have hfix : row.type_name ∈ fixedArgTypes := by
      simp only [List.mem_cons, List.not_mem_nil, or_false] at h
      rcases h with h | h | h | h <;> rw [h] <;> decide
    have hargs := colArgs_fixed row hfix
    have hlook : ischema_lookup row.type_name = some row.type_name := by
      simp only [List.mem_cons, List.not_mem_nil, or_false] at h
      rcases h with h | h | h | h <;> rw [h] <;> decide
    show colTypeOf row = _
    simp only [colTypeOf, hlook, hargs]
  · intro h
    have hlook : ischema_lookup row.type_name = none := by
      rw [h]; decide
    show colTypeOf row = _
    simp only [colTypeOf, hlook]
  · intro n h hcl hn
    have hargs : colArgs row = [n] := by
      unfold colArgs
      rw [if_neg (by rw [h]; decide), if_neg (by rw [h]; decide)]
      simp only [hcl]
      rw [if_pos hn]
    have hlook : ischema_lookup row.type_name = some (str2c "VARCHAR") := by
      rw [h]; decide
    show colTypeOf row = _
    simp only [colTypeOf, hlook, hargs]

/-- Witness for C6 (amended) at concrete column rows. -/
theorem type_args_amended_witness :
    (processColumn ⟨str2c "D", str2c "DOUBLE", none, str2c "YES",
        none, some 22⟩).1.type = ColType.known (str2c "NUMERIC") [53] ∧
    (processColumn ⟨str2c "T", str2c "TIMESTAMP", none, str2c "YES",
        none, some 23⟩).1.type = ColType.known (str2c "TIMESTAMP") [] ∧
    (processColumn ⟨str2c "V", str2c "VARCHAR", none, str2c "YES",
        none, some 255⟩).1.type = ColType.known (str2c "VARCHAR") [255] :=
  ⟨(type_args_amended _).1 rfl,
   (type_args_amended
     (⟨str2c "T", str2c "TIMESTAMP", none, str2c "YES",
        none, some 23⟩ : ColRow)).2.1 (by decide),
   (type_args_amended _).2.2.2 255 rfl rfl (by decide)⟩

theorem get_columns_foldl (rows : List ColRow) (a : List ColDesc)
    (b : List (Ident × Ident)) :
    rows.foldl colStep (a, b) =
      (a ++ rows.map (fun r => (processColumn r).1),
       b ++ (rows.filter (fun r => (processColumn r).2)).map
         (fun r => (r.type_name, normalize_name r.column_name))) := by
  induction rows generalizing a b with
  | nil => simp
  | cons r t ih =>
    rw [List.foldl_cons]
    have hstep : colStep (a, b) r =
        (a ++ [(processColumn r).1],
         b ++ if (processColumn r).2 then
           [(r.type_name, normalize_name r.column_name)] else []) := rfl
    rw [hstep, ih]
    by_cases hw : (processColumn r).2 = true
    · simp [hw, List.filter_cons]
    · simp [hw, List.filter_cons]

theorem get_columns_eq (rows : List ColRow) :
    get_columns rows =
      (rows.map (fun r => (processColumn r).1),
       (rows.filter (fun r => (processColumn r).2)).map
         (fun r => (r.type_name, normalize_name r.column_name))) := by
  unfold get_columns
  rw [get_columns_foldl]
  simp

/-- C7: an unmapped native type name yields the `NULLTYPE` sentinel plus a
warning, reflection is total, and every row — the affected one included —
still contributes its descriptor to the result. -/
theorem unknown_type_nonfatal (rows : List ColRow) (row : ColRow)
    (h : ischema_lookup row.type_name = none) :
    (processColumn row).1.type = ColType.nulltype ∧
    (processColumn row).2 = true ∧
    (get_columns rows).1.length = rows.length ∧
    (row ∈ rows →
      (row.type_name, normalize_name row.column_name) ∈ (get_columns rows).2) ∧
    (row ∈ rows → (processColumn row).1 ∈ (get_columns rows).1) := by
  have h2 : (processColumn row).2 = true := by
    show (ischema_lookup row.type_name).isNone = true
    rw [h]
    rfl
  refine ⟨?_, h2, ?_, ?_, ?_⟩
  · show colTypeOf row = _
    simp only [colTypeOf, h]
  · rw [get_columns_eq]
    simp
  · intro hm
    rw [get_columns_eq]
    exact List.mem_map_of_mem _ (List.mem_filter.mpr ⟨hm, h2⟩)
  · intro hm
    rw [get_columns_eq]
    exact List.mem_map_of_mem _ hm

/-- Witness for C7: a `FROBNICATE` column alongside a `VARCHAR` column. -/
theorem unknown_type_nonfatal_witness :
    (processColumn ⟨str2c "X1", str2c "FROBNICATE", none, str2c "YES",
        none, none⟩).1.type = ColType.nulltype ∧
    (get_columns
        [⟨str2c "X1", str2c "FROBNICATE", none, str2c "YES", none, none⟩,
         ⟨str2c "X2", str2c "VARCHAR", none, str2c "YES", none,
          some 255⟩]).1.length = 2 ∧
    (str2c "FROBNICATE", normalize_name (str2c "X1")) ∈
      (get_columns
        [⟨str2c "X1", str2c "FROBNICATE", none, str2c "YES", none, none⟩,
         ⟨str2c "X2", str2c "VARCHAR", none, str2c "YES", none,
          some 255⟩]).2 :=
  ⟨(unknown_type_nonfatal [] _ (by decide)).1,
   (unknown_type_nonfatal
      [⟨str2c "X1", str2c "FROBNICATE", none, str2c "YES", none, none⟩,
       ⟨str2c "X2", str2c "VARCHAR", none, str2c "YES", none, some 255⟩]
      (⟨str2c "X1", str2c "FROBNICATE", none, str2c "YES", none,
        none⟩ : ColRow)
      (by decide)).2.2.1,
   (unknown_type_nonfatal
      [⟨str2c "X1", str2c "FROBNICATE", none, str2c "YES", none, none⟩,
       ⟨str2c "X2", str2c "VARCHAR", none, str2c "YES", none, some 255⟩]
      (⟨str2c "X1", str2c "FROBNICATE", none, str2c "YES", none,
        none⟩ : ColRow)
      (by decide)).2.2.2.1 (by decide)⟩

theorem get_indexes_filter_pk (rows : List IdxRow) (st : List IdxDesc) :
    rows.foldl (idxStep false) st =
      (rows.filter
        (fun r => !(r.index_type_name == str2c "PRIMARY KEY"))).foldl
        (idxStep false) st := by
  induction rows generalizing st with
  | nil => rfl
  | cons r t ih =>
    rw [List.foldl_cons, List.filter_cons]
    cases hr : (r.index_type_name == str2c "PRIMARY KEY") with
    | true =>
      have hstep : idxStep false st r = st := by
        simp [idxStep, hr]
      simp only [hr, Bool.not_true, if_neg]
      rw [hstep]
      exact ih st
    | false =>
      simp only [hr, Bool.not_false, if_pos]
      rw [List.foldl_cons]
      exact ih (idxStep false st r)

/-- C5: rows sharing an index name group into one descriptor whose column
list preserves row order; `PRIMARY KEY` rows are dropped exactly when
`include_auto_indexes` is false; `unique` is the negation of `non_unique`. -/
theorem index_grouping :
    (∀ (nm c1 c2 c3 ty : Ident) (nu : Bool), ty ≠ str2c "PRIMARY KEY" →
      get_indexes false
          [⟨nm, nu, c1, ty⟩, ⟨nm, nu, c2, ty⟩, ⟨nm, nu, c3, ty⟩] =
        [{ name := normalize_name nm,
           column_names :=
             [normalize_name c1, normalize_name c2, normalize_name c3],
           unique := !nu }]) ∧
    (∀ rows : List IdxRow,
      get_indexes false rows =
        get_indexes false
          (rows.filter
            (fun r => !(r.index_type_name == str2c "PRIMARY KEY")))) ∧
    (∀ r : IdxRow, r.index_type_name = str2c "PRIMARY KEY" →
      get_indexes false [r] = [] ∧
      get_indexes true [r] =
        [{ name := normalize_name r.index_name,
           column_names := [normalize_name r.column_name],
           unique := !r.non_unique }]) := by
  refine ⟨?_, ?_, ?_⟩
  · intro nm c1 c2 c3 ty nu h
    have hty : (ty == str2c "PRIMARY KEY") = false :=
      beq_eq_false_iff_ne.mpr h
    simp [get_indexes, idxStep, updIdx, hty]
  · intro rows
    exact get_indexes_filter_pk rows []
  · intro r hr
    constructor
    · simp [get_indexes, idxStep, hr]
    · simp [get_indexes, idxStep, updIdx]

/-- Witness for C5 at concrete index rows. -/
theorem index_grouping_witness :
    get_indexes false
        [⟨str2c "IX1", false, str2c "C1", str2c "INDEX"⟩,
         ⟨str2c "IX1", false, str2c "C2", str2c "INDEX"⟩,
         ⟨str2c "IX1", false, str2c "C3", str2c "INDEX"⟩] =
      [{ name := normalize_name (str2c "IX1"),
         column_names :=
           [normalize_name (str2c "C1"), normalize_name (str2c "C2"),
            normalize_name (str2c "C3")],
         unique := true }] ∧
    get_indexes false
        [⟨str2c "PK1", false, str2c "C1", str2c "PRIMARY KEY"⟩] = [] ∧
    get_indexes true
        [⟨str2c "PK1", false, str2c "C1", str2c "PRIMARY KEY"⟩] =
      [{ name := normalize_name (str2c "PK1"),
         column_names := [normalize_name (str2c "C1")],
         unique := true }] :=
  ⟨index_grouping.1 _ _ _ _ _ false (by decide),
   (index_grouping.2.2 _ (by decide)).1,
   (index_grouping.2.2 _ (by decide)).2⟩

end H2
